import Mathlib

/-!
Verification of the geospatial-notebooks specification: a shallow embedding
of the data model (Feature, Attribute Table, CRS) and of the operations the
notebooks perform (spatial join, reprojection, CRS assignment, file
round-trip, remote feature-collection retrieval), with theorems settling
the specification claims.

Coordinates are exact integers; attribute values are scalars or null.
-/

namespace GeoNb

/-- A scalar attribute value of a table cell (string, number, or null). -/
inductive Value where
  | str (s : String)
  | num (q : ℤ)
  | null
deriving DecidableEq

/-- A vector geometry: a point or a polygon given by its outer ring. -/
inductive Geometry where
  | point (x y : ℤ)
  | polygon (ring : List (ℤ × ℤ))
deriving DecidableEq

/-- A Feature: named attribute fields plus exactly one geometry.  The field
`gcrs` records the coordinate reference system (as an EPSG code) in which the
geometry's coordinates are actually expressed; the data-model invariant is
that it agrees with the containing table's declared CRS. -/
structure Feature where
  attrs : List (String × Value)
  geom : Geometry
  gcrs : Nat
deriving DecidableEq

/-- An Attribute Table: an ordered sequence of Features sharing one declared
coordinate reference system (possibly still undefined, as for a table built
from scratch) and one attribute schema fixed at creation time. -/
structure Table where
  crs : Option Nat
  schema : List String
  features : List Feature
deriving DecidableEq

/-- Modelled from the spec: the geometry library's point-in-polygon test
(a black-box service in the spec), as even-odd ray casting: a horizontal ray
from the query point crosses edge a-b iff the edge straddles the point's
y-coordinate and the intersection lies strictly to the right. -/
def edgeCrosses (px py : ℤ) (a b : ℤ × ℤ) : Bool :=
  (decide (py < a.2) != decide (py < b.2)) &&
    (let d := b.2 - a.2
     let cross := (b.1 - a.1) * (py - a.2) - (px - a.1) * d
     if 0 < d then decide (0 < cross) else decide (cross < 0))

/-- The closing list of edges of a polygon ring (each vertex to the next,
wrapping around). -/
def ringEdges (ring : List (ℤ × ℤ)) : List ((ℤ × ℤ) × (ℤ × ℤ)) :=
  ring.zip (ring.rotate 1)

/-- Modelled from the spec: point-in-polygon via the even-odd rule. -/
def pointInRing (px py : ℤ) (ring : List (ℤ × ℤ)) : Bool :=
  (ringEdges ring).countP (fun e => edgeCrosses px py e.1 e.2) % 2 == 1

/-- Modelled from the spec: the geometry library's containment predicate.
A polygon contains a point iff the point lies inside its ring; a point
contains only an identical point; a polygon contains a polygon iff it
contains all of its vertices. -/
def geomContains : Geometry → Geometry → Bool
  | .polygon ring, .point x y => pointInRing x y ring
  | .point x1 y1, .point x2 y2 => decide (x1 = x2) && decide (y1 = y2)
  | .polygon r1, .polygon r2 => r2.all (fun v => pointInRing v.1 v.2 r1)
  | .point _ _, .polygon _ => false

/-- Modelled from the spec: within is the converse of containment. -/
def geomWithin (g1 g2 : Geometry) : Bool := geomContains g2 g1

/-- Modelled from the spec: the geometry library's intersection predicate
(vertex-membership approximation for the polygon-polygon case, which the
notebooks never exercise). -/
def geomIntersects : Geometry → Geometry → Bool
  | .point x1 y1, .point x2 y2 => decide (x1 = x2) && decide (y1 = y2)
  | .polygon ring, .point x y => pointInRing x y ring
  | .point x y, .polygon ring => pointInRing x y ring
  | .polygon r1, .polygon r2 =>
      r2.any (fun v => pointInRing v.1 v.2 r1) ||
        r1.any (fun v => pointInRing v.1 v.2 r2)

/-- The three spatial predicates selectable in the join (the op argument of
the notebook's gpd.sjoin call). -/
inductive Pred where
  | intersects
  | within
  | contains
deriving DecidableEq

/-- Dispatch of a predicate name to the geometry-library test. -/
def evalPred : Pred → Geometry → Geometry → Bool
  | .intersects => geomIntersects
  | .within => geomWithin
  | .contains => geomContains

/-- The three join modes (the how argument of gpd.sjoin). -/
inductive JoinMode where
  | inner
  | leftOuter
  | rightOuter
deriving DecidableEq

/-- The spatial-join failure: the two tables' declared CRS differ. -/
inductive JoinErr where
  | crsMismatch
deriving DecidableEq

/-- One output row of the join before flattening: the contributing left
feature (absent only for an unmatched right row in right-outer mode), the
matched right row's original identifier (absent for an unmatched left row),
and the contributing right feature. -/
structure JoinedRow where
  left : Option Feature
  rightIdx : Option Nat
  right : Option Feature
deriving DecidableEq

/-- The right rows matching a given left feature under predicate P, each
paired with its original position in the right table. -/
def matchesOf (P : Pred) (l : Feature) (rs : List Feature) : List (Nat × Feature) :=
  rs.enum.filter (fun ir => evalPred P l.geom ir.2.geom)

/-- Null filling for a missing side: every column of the schema paired with
null. -/
def nullAttrs (schema : List String) : List (String × Value) :=
  schema.map (fun c => (c, Value.null))

/-- The inner-mode output rows contributed by one left feature: one row per
matching right row. -/
def innerRowsFor (P : Pred) (rs : List Feature) (l : Feature) : List JoinedRow :=
  (matchesOf P l rs).map (fun ir => ⟨some l, some ir.1, some ir.2⟩)

/-- The left-outer-mode output rows contributed by one left feature: the
matching pairs, or a single null-filled row when there is no match. -/
def leftRowsFor (P : Pred) (rs : List Feature) (l : Feature) : List JoinedRow :=
  match matchesOf P l rs with
  | [] => [⟨some l, none, none⟩]
  | ms => ms.map (fun ir => ⟨some l, some ir.1, some ir.2⟩)

/-- The right-outer-mode output rows contributed by one right row (with its
original identifier): symmetric to left-outer with roles reversed. -/
def rightRowsFor (P : Pred) (ls : List Feature) (ir : Nat × Feature) : List JoinedRow :=
  match ls.filter (fun l => evalPred P l.geom ir.2.geom) with
  | [] => [⟨none, some ir.1, some ir.2⟩]
  | ms => ms.map (fun l => ⟨some l, some ir.1, some ir.2⟩)

/-- Modelled from the spec (section 4.1; the notebook's gpd.sjoin call cell
is left blank): the row list of the spatial join.  Inner mode emits one row
per matching pair; left-outer additionally emits one null-filled row for an
unmatched left feature; right-outer is symmetric with roles reversed. -/
def sjoinRows (P : Pred) (mode : JoinMode) (L R : Table) : List JoinedRow :=
  match mode with
  | .inner => L.features.flatMap (innerRowsFor P R.features)
  | .leftOuter => L.features.flatMap (leftRowsFor P R.features)
  | .rightOuter => R.features.enum.flatMap (rightRowsFor P L.features)

/-- The right-row identifier as an attribute value (null when no right row
matched). -/
def idxVal : Option Nat → Value
  | some i => Value.num i
  | none => Value.null

/-- Flattening of a join row into an output Feature: left attributes (null
filled when absent), the index_right column, right attributes (null filled
when absent); the geometry is the left feature's when present, otherwise the
right feature's. -/
def rowFeature (L R : Table) (jr : JoinedRow) : Feature :=
  let la := match jr.left with
    | some l => l.attrs
    | none => nullAttrs L.schema
  let ra := match jr.right with
    | some r => r.attrs
    | none => nullAttrs R.schema
  let gg : Geometry × Nat := match jr.left, jr.right with
    | some l, _ => (l.geom, l.gcrs)
    | none, some r => (r.geom, r.gcrs)
    | none, none => (Geometry.point 0 0, 0)
  ⟨la ++ ("index_right", idxVal jr.rightIdx) :: ra, gg.1, gg.2⟩

/-- Modelled from the spec (section 4.1): the Spatial Join Operator.  It
fails with a CRS-mismatch error, before any predicate is evaluated, unless
the two declared CRS agree; otherwise it builds a fresh table of the joined
rows. -/
def sjoin (P : Pred) (mode : JoinMode) (L R : Table) : Except JoinErr Table :=
  if L.crs = R.crs then
    .ok ⟨L.crs, L.schema ++ "index_right" :: R.schema,
         (sjoinRows P mode L R).map (rowFeature L R)⟩
  else
    .error .crsMismatch

/-- The number of (l, r) pairs of features of L and R satisfying P. -/
def countPairs (P : Pred) (L R : Table) : Nat :=
  (L.features.product R.features).countP (fun p => evalPred P p.1.geom p.2.geom)

/-- The data-model invariant: whenever a CRS is declared for the table, every
feature's geometry is expressed in that CRS.  A table with no declared CRS
(such as one built from scratch before assignment) constrains nothing. -/
def wellFormed (T : Table) : Prop :=
  ∀ c, T.crs = some c → ∀ ft ∈ T.features, ft.gcrs = c

/-- Applying a coordinate transformation to every coordinate of a geometry. -/
def mapGeom (f : ℤ × ℤ → ℤ × ℤ) : Geometry → Geometry
  | .point x y => .point (f (x, y)).1 (f (x, y)).2
  | .polygon ring => .polygon (ring.map f)

/-- Reprojection failure: the source table has no declared CRS. -/
inductive CrsErr where
  | missingCrs
deriving DecidableEq

/-- Modelled from the spec: the projection library's coordinate conversion is
a black-box service, so reprojection is parametric in the conversion function
proj (from-CRS, to-CRS, coordinates).  The to_crs operation (the notebook's
addresses.to_crs call) fails when the source table has no declared CRS, and
otherwise rewrites every feature's geometry and the declared CRS in one
step. -/
def to_crs (proj : Nat → Nat → ℤ × ℤ → ℤ × ℤ) (T : Table) (c : Nat) :
    Except CrsErr Table :=
  match T.crs with
  | none => .error .missingCrs
  | some src =>
      .ok ⟨some c, T.schema,
           T.features.map (fun ft => ⟨ft.attrs, mapGeom (proj src c) ft.geom, c⟩)⟩

/-- Direct assignment of a CRS identifier to the table's crs field (the
notebooks' newdata.crs = ... and pop.crs = ... cells): it sets the declared
CRS metadata and touches nothing else. -/
def set_crs (T : Table) (c : Nat) : Table :=
  ⟨some c, T.schema, T.features⟩

/-- The body of an HTTP response, as far as the notebook inspects it: either
a parseable feature collection or content the geojson parser rejects. -/
inductive Body where
  | featureRows (rows : List Feature)
  | invalid
deriving DecidableEq

/-- An HTTP response: a status code and a body. -/
structure Response where
  status : Nat
  body : Body
deriving DecidableEq

/-- An HTTP status code in the success class. -/
def isSuccessStatus (s : Nat) : Bool :=
  decide (200 ≤ s) && decide (s < 300)

/-- Failure of the retrieval pipeline: the body cannot be parsed. -/
inductive FetchErr where
  | parseFailure
deriving DecidableEq

/-- Parsing a response body into an Attribute Table (geojson.loads followed
by GeoDataFrame.from_features): the resulting table has no declared CRS; its
schema is read off the first row. -/
def parseFeatureCollection : Body → Except FetchErr Table
  | .featureRows rows =>
      .ok ⟨none, (rows.head?.elim [] (fun f => f.attrs.map (fun a => a.1))), rows⟩
  | .invalid => .error .parseFailure

/-- The notebook's retrieval cell: r = requests.get(url, params) followed by
gpd.GeoDataFrame.from_features(geojson.loads(r.content)).  The status code of
the response is never inspected; the body is parsed unconditionally and a
parse failure propagates. -/
def fetchFeatureCollection (r : Response) : Except FetchErr Table :=
  parseFeatureCollection r.body

/-- One persisted record of the file layer: the attribute cells plus the
geometry flattened to a type tag and a coordinate list. -/
structure FileRec where
  cells : List (String × Value)
  gtag : Nat
  coords : List (ℤ × ℤ)
deriving DecidableEq

/-- Modelled from the spec: the persisted form of a table (the vector file
plus its CRS sidecar): the declared CRS, the column set, and one record per
feature. -/
structure FileData where
  prj : Option Nat
  cols : List String
  recs : List FileRec
deriving DecidableEq

/-- Serialization of a geometry to its tag and coordinate list. -/
def encodeGeom : Geometry → Nat × List (ℤ × ℤ)
  | .point x y => (0, [(x, y)])
  | .polygon ring => (1, ring)

/-- Parsing a geometry back from its tag and coordinate list. -/
def decodeGeom : Nat → List (ℤ × ℤ) → Option Geometry
  | 0, [(x, y)] => some (.point x y)
  | 1, ring => some (.polygon ring)
  | _, _ => none

/-- Modelled from the spec: persisting a table to a file (the notebook's
newdata.to_file and join.to_file calls). -/
def to_file (T : Table) : FileData :=
  ⟨T.crs, T.schema,
   T.features.map (fun ft => ⟨ft.attrs, (encodeGeom ft.geom).1, (encodeGeom ft.geom).2⟩)⟩

/-- Parsing one persisted record back into a Feature expressed in the file's
CRS. -/
def decodeRec (c : Nat) (r : FileRec) : Option Feature :=
  (decodeGeom r.gtag r.coords).map (fun g => ⟨r.cells, g, c⟩)

/-- Parsing every persisted record, failing if any geometry is malformed. -/
def decodeAll (c : Nat) : List FileRec → Option (List Feature)
  | [] => some []
  | r :: rs =>
      match decodeRec c r, decodeAll c rs with
      | some f, some fs => some (f :: fs)
      | _, _ => none

/-- Modelled from the spec: loading a table from a file (the notebook's
gpd.read_file call); features are expressed in the CRS recorded in the
sidecar. -/
def read_file (fd : FileData) : Option Table :=
  (decodeAll (fd.prj.getD 0) fd.recs).map (fun fs => ⟨fd.prj, fd.cols, fs⟩)

/-- The notebook's variable environment around the join step: the address
point layer, the population grid layer, and the join result. -/
structure Env where
  addresses : Table
  pop : Table
  joined : Option Table
deriving DecidableEq

/-- The notebook's join step as a state transformer over its variables:
join = gpd.sjoin(addresses, pop, ...) stores the result in the join variable
and nothing else. -/
def runJoinStep (P : Pred) (mode : JoinMode) (σ : Env) : Except JoinErr Env :=
  (sjoin P mode σ.addresses σ.pop).map (fun t => ⟨σ.addresses, σ.pop, some t⟩)

/-- The spec's example polygon table: one feature covering the square
[(0,0),(4,0),(4,4),(0,4)]. -/
def squareTable : Table :=
  ⟨some 4326, ["name"],
   [⟨[("name", Value.str "square")],
     Geometry.polygon [(0, 0), (4, 0), (4, 4), (0, 4)], 4326⟩]⟩

/-- The spec's example point table: one point at (2,2) and one at (10,10). -/
def pointTable : Table :=
  ⟨some 4326, ["pid"],
   [⟨[("pid", Value.num 1)], Geometry.point 2 2, 4326⟩,
    ⟨[("pid", Value.num 2)], Geometry.point 10 10, 4326⟩]⟩

/-- A population-grid-like table declared in EPSG:3879, as the notebook's
pop layer after its CRS was defined. -/
def popGrid : Table :=
  ⟨some 3879, ["pop18"],
   [⟨[("pop18", Value.num 44)], Geometry.polygon [(0, 0), (4, 0), (4, 4), (0, 4)], 3879⟩]⟩

/-- A population-grid-like table with no features, declared in EPSG:4326. -/
def emptyPopTable : Table :=
  ⟨some 4326, ["pop18"], []⟩

/-- The expected result of the spec's example join (used by the
concrete-instance theorems below). -/
def exampleJoinResult : Table :=
  ⟨some 4326, ["name", "index_right", "pid"],
   [⟨[("name", Value.str "square"), ("index_right", Value.num 0),
      ("pid", Value.num 1)],
     Geometry.polygon [(0, 0), (4, 0), (4, 4), (0, 4)], 4326⟩]⟩

/-- A mock coordinate conversion: the identity between equal reference
systems, a scaling otherwise. -/
def scaleProj (c1 c2 : Nat) (p : ℤ × ℤ) : ℤ × ℤ :=
  if c1 = c2 then p else (2 * p.1, 2 * p.2)

/-- A concrete notebook environment before the join step. -/
def exampleEnv : Env :=
  ⟨squareTable, pointTable, none⟩

/-- The concrete notebook environment after the join step. -/
def exampleEnvAfter : Env :=
  ⟨squareTable, pointTable, some exampleJoinResult⟩

/-- The expected result of a left-outer join of the example point table
against the empty population table: both points survive, null filled. -/
def exampleLeftOuterResult : Table :=
  ⟨some 4326, ["pid", "index_right", "pop18"],
   [⟨[("pid", Value.num 1), ("index_right", Value.null), ("pop18", Value.null)],
     Geometry.point 2 2, 4326⟩,
    ⟨[("pid", Value.num 2), ("index_right", Value.null), ("pop18", Value.null)],
     Geometry.point 10 10, 4326⟩]⟩

/-! Helper lemmas about counting and enumeration. -/

lemma length_filter_enumFrom {α : Type} (p : α → Bool) (rs : List α) :
    ∀ n, ((rs.enumFrom n).filter (fun ir => p ir.2)).length = rs.countP p := by
  induction rs with
  | nil => intro n; rfl
  | cons a rs ih =>
      intro n
      simp only [List.enumFrom, List.filter_cons, List.countP_cons]
      cases h : p a <;> simp [h, ih (n + 1)]

lemma matchesOf_length (P : Pred) (l : Feature) (rs : List Feature) :
    (matchesOf P l rs).length = rs.countP (fun r => evalPred P l.geom r.geom) :=
  length_filter_enumFrom (fun r : Feature => evalPred P l.geom r.geom) rs 0

lemma countP_product {α β : Type} (p : α → β → Bool) (ls : List α) (rs : List β) :
    (ls.product rs).countP (fun ab => p ab.1 ab.2) =
      (ls.map (fun a => rs.countP (p a))).sum := by
  induction ls with
  | nil => rfl
  | cons a ls ih =>
      simp only [List.product] at ih ⊢
      simp only [List.flatMap_cons, List.countP_append, List.countP_map, ih,
        List.map_cons, List.sum_cons]
      rfl

lemma countPairs_eq_sum (P : Pred) (L R : Table) :
    countPairs P L R =
      (L.features.map
        (fun l => R.features.countP (fun r => evalPred P l.geom r.geom))).sum :=
  countP_product (fun lf rf : Feature => evalPred P lf.geom rf.geom)
    L.features R.features

lemma sum_le_mul (l : List ℕ) (m : ℕ) (h : ∀ x ∈ l, x ≤ m) :
    l.sum ≤ l.length * m := by
  have := List.sum_le_card_nsmul l m h
  simpa [smul_eq_mul] using this

lemma length_le_sum (l : List ℕ) (h : ∀ x ∈ l, 1 ≤ x) : l.length ≤ l.sum := by
  induction l with
  | nil => simp
  | cons a l ih =>
      simp only [List.length_cons, List.sum_cons]
      have ha := h a (List.mem_cons_self a l)
      have hb := ih (fun x hx => h x (List.mem_cons_of_mem a hx))
      omega

/-- Claim C1: for inner-mode joins of tables with matching CRS, the output row
count equals the number of (l, r) pairs satisfying the predicate, a number
that is at least 0 and at most n·m. -/
theorem sjoin_inner_count (P : Pred) (L R : Table) (hcrs : L.crs = R.crs) :
    ∃ T, sjoin P .inner L R = .ok T ∧
      T.features.length = countPairs P L R ∧
      0 ≤ countPairs P L R ∧
      countPairs P L R ≤ L.features.length * R.features.length := by
  have hok : sjoin P .inner L R =
      .ok ⟨L.crs, L.schema ++ "index_right" :: R.schema,
           (sjoinRows P .inner L R).map (rowFeature L R)⟩ := by
    unfold sjoin
    rw [if_pos hcrs]
  refine ⟨_, hok, ?_, Nat.zero_le _, ?_⟩
  · show ((sjoinRows P .inner L R).map (rowFeature L R)).length = countPairs P L R
    rw [List.length_map]
    show (L.features.flatMap (innerRowsFor P R.features)).length = countPairs P L R
    rw [List.length_flatMap, countPairs_eq_sum]
    congr 1
    apply List.map_congr_left
    intro l _
    simp [innerRowsFor, matchesOf_length]
  · rw [countPairs_eq_sum]
    have h1 : ∀ x ∈ L.features.map
        (fun l => R.features.countP (fun r => evalPred P l.geom r.geom)),
        x ≤ R.features.length := by
      intro x hx
      obtain ⟨l, _, rfl⟩ := List.mem_map.1 hx
      exact List.countP_le_length _
    have h2 := sum_le_mul _ _ h1
    simpa [List.length_map] using h2

/-- Witness for C1: the spec's example tables share a CRS, so the theorem
applies to their contains-join. -/
theorem sjoin_inner_count_witness :
    ∃ T, sjoin .contains .inner squareTable pointTable = .ok T ∧
      T.features.length = countPairs .contains squareTable pointTable ∧
      0 ≤ countPairs .contains squareTable pointTable ∧
      countPairs .contains squareTable pointTable ≤
        squareTable.features.length * pointTable.features.length :=
  sjoin_inner_count .contains squareTable pointTable rfl

/-- Claim C2: the spatial join fails with the CRS-mismatch error exactly when the
two declared CRS differ (before any predicate work is even reachable, the
result is the same for every predicate), and proceeds to a result table only
when they agree. -/
theorem sjoin_crs_guard (P : Pred) (mode : JoinMode) (L R : Table) :
    (L.crs ≠ R.crs → sjoin P mode L R = .error .crsMismatch) ∧
    (L.crs = R.crs → ∃ T, sjoin P mode L R = .ok T) := by
  constructor
  · intro h
    unfold sjoin
    rw [if_neg h]
  · intro h
    exact ⟨_, by unfold sjoin; rw [if_pos h]⟩

/-- Witness for C2: the square table (EPSG:4326) against the population grid
(EPSG:3879) is rejected; after reprojection metadata agrees the join
succeeds. -/
theorem sjoin_crs_guard_witness :
    sjoin .within .inner squareTable popGrid = .error .crsMismatch ∧
    (∃ T, sjoin .within .inner (set_crs squareTable 3879) popGrid = .ok T) :=
  ⟨(sjoin_crs_guard .within .inner squareTable popGrid).1 (by decide),
   (sjoin_crs_guard .within .inner (set_crs squareTable 3879) popGrid).2 (by decide)⟩

/-! Helper lemmas about the left-outer blocks. -/

lemma leftRowsFor_nomatch {P : Pred} {rs : List Feature} {l : Feature}
    (h : matchesOf P l rs = []) :
    leftRowsFor P rs l = [⟨some l, none, none⟩] := by
  unfold leftRowsFor
  rw [h]

lemma leftRowsFor_pos (P : Pred) (rs : List Feature) (l : Feature) :
    1 ≤ (leftRowsFor P rs l).length := by
  unfold leftRowsFor
  cases h : matchesOf P l rs with
  | nil => simp
  | cons m ms => simp

lemma mem_leftRowsFor_left {P : Pred} {rs : List Feature} {l : Feature}
    {jr : JoinedRow} (h : jr ∈ leftRowsFor P rs l) :
    jr.left = some l := by
  unfold leftRowsFor at h
  cases hm : matchesOf P l rs with
  | nil =>
      rw [hm] at h
      simp at h
      rw [h]
  | cons m ms =>
      rw [hm] at h
      obtain ⟨ir, _, rfl⟩ := List.mem_map.1 h
      rfl

lemma filter_leftRowsFor_self {P : Pred} {rs : List Feature} {l : Feature}
    (h : matchesOf P l rs = []) :
    (leftRowsFor P rs l).filter (fun jr => decide (jr.left = some l)) =
      [⟨some l, none, none⟩] := by
  rw [leftRowsFor_nomatch h]
  simp [List.filter]

lemma filter_leftRowsFor_ne (P : Pred) (rs : List Feature) {a l : Feature}
    (hne : a ≠ l) :
    (leftRowsFor P rs a).filter (fun jr => decide (jr.left = some l)) = [] := by
  apply List.filter_eq_nil_iff.2
  intro jr hjr
  have hl := mem_leftRowsFor_left hjr
  simp [hl, hne]

lemma leftOuter_blocks_replicate (P : Pred) (rs : List Feature) (l : Feature)
    (h : matchesOf P l rs = []) (fs : List Feature) :
    (fs.flatMap (leftRowsFor P rs)).filter (fun jr => decide (jr.left = some l)) =
      List.replicate (fs.countP (fun a => decide (a = l))) ⟨some l, none, none⟩ := by
  induction fs with
  | nil => rfl
  | cons a fs ih =>
      rw [List.flatMap_cons, List.filter_append, ih, List.countP_cons]
      by_cases ha : a = l
      · subst ha
        rw [filter_leftRowsFor_self h]
        simp [List.replicate_succ]
      · rw [filter_leftRowsFor_ne P rs ha]
        simp [ha]

/-- Claim C3: a successful left-outer join has at least as many rows as the left
table; every left feature heads at least one output row; and a left feature
with no match contributes exactly one output row per occurrence, namely the
row whose right-hand side is null filled (its flattened form carries the
left attributes, a null right identifier, and null right columns). -/
theorem sjoin_leftOuter_preserves_left (P : Pred) (L R : Table) (T : Table)
    (hok : sjoin P .leftOuter L R = .ok T) :
    L.features.length ≤ T.features.length ∧
    (∀ l ∈ L.features, ∃ jr ∈ sjoinRows P .leftOuter L R, jr.left = some l) ∧
    (∀ l ∈ L.features, matchesOf P l R.features = [] →
      (sjoinRows P .leftOuter L R).filter (fun jr => decide (jr.left = some l)) =
        List.replicate (L.features.countP (fun a => decide (a = l)))
          ⟨some l, none, none⟩ ∧
      rowFeature L R ⟨some l, none, none⟩ =
        ⟨l.attrs ++ ("index_right", Value.null) :: nullAttrs R.schema,
         l.geom, l.gcrs⟩) := by
  have hrows : sjoinRows P .leftOuter L R =
      L.features.flatMap (leftRowsFor P R.features) := rfl
  refine ⟨?_, ?_, ?_⟩
  · by_cases hc : L.crs = R.crs
    · unfold sjoin at hok
      rw [if_pos hc] at hok
      have hT : T = ⟨L.crs, L.schema ++ "index_right" :: R.schema,
          (sjoinRows P .leftOuter L R).map (rowFeature L R)⟩ :=
        (Except.ok.inj hok).symm
      rw [hT]
      show L.features.length ≤ ((sjoinRows P .leftOuter L R).map (rowFeature L R)).length
      rw [List.length_map, hrows, List.length_flatMap]
      have h1 : ∀ x ∈ L.features.map (List.length ∘ leftRowsFor P R.features),
          1 ≤ x := by
        intro x hx
        obtain ⟨l, _, rfl⟩ := List.mem_map.1 hx
        exact leftRowsFor_pos P R.features l
      have h2 := length_le_sum _ h1
      simpa [List.length_map] using h2
    · unfold sjoin at hok
      rw [if_neg hc] at hok
      exact absurd hok (by simp)
  · intro l hl
    have hne : leftRowsFor P R.features l ≠ [] := by
      intro hnil
      have := leftRowsFor_pos P R.features l
      rw [hnil] at this
      simp at this
    obtain ⟨jr, hjr⟩ := List.exists_mem_of_ne_nil _ hne
    exact ⟨jr, by rw [hrows]; exact List.mem_flatMap.2 ⟨l, hl, hjr⟩,
      mem_leftRowsFor_left hjr⟩
  · intro l _ hmt
    refine ⟨?_, rfl⟩
    rw [hrows]
    exact leftOuter_blocks_replicate P R.features l hmt L.features

/-- Witness for C3: the left-outer join of the example point table against an
empty population grid succeeds with both points retained. -/
theorem sjoin_leftOuter_preserves_left_witness :
    pointTable.features.length ≤ exampleLeftOuterResult.features.length :=
  (sjoin_leftOuter_preserves_left .within pointTable emptyPopTable
    exampleLeftOuterResult (by rfl)).1

/-- Claim C5: joining the one-square polygon table with the two-point table in
inner mode under the contains predicate yields exactly one output row, the
pairing of the square with the point (2,2) (right identifier 0); the point
(10,10) is not contained in the square, so it contributes nothing. -/
theorem example_contains_join :
    sjoin .contains .inner squareTable pointTable = .ok exampleJoinResult ∧
    sjoinRows .contains .inner squareTable pointTable =
      [⟨some ⟨[("name", Value.str "square")],
          Geometry.polygon [(0, 0), (4, 0), (4, 4), (0, 4)], 4326⟩,
        some 0,
        some ⟨[("pid", Value.num 1)], Geometry.point 2 2, 4326⟩⟩] ∧
    geomContains (Geometry.polygon [(0, 0), (4, 0), (4, 4), (0, 4)])
      (Geometry.point 10 10) = false :=
  ⟨by rfl, by rfl, by rfl⟩

/-- Claim C4 counterexample: the retrieval cell never inspects the HTTP status
code, so a non-success response whose body still parses is accepted with no
retrieval error at all. -/
theorem fetch_nonsuccess_counterexample :
    isSuccessStatus 500 = false ∧
    fetchFeatureCollection ⟨500, Body.featureRows []⟩ = .ok ⟨none, [], []⟩ :=
  ⟨rfl, rfl⟩

/-- Claim C4 amended: the retrieval never inspects the HTTP status (its result is
the same for every status code); the body is parsed unconditionally, the
operation fails exactly when the body is unparseable, that single parse
failure propagates to the caller, and nothing is retried or swallowed. -/
theorem fetch_parses_unconditionally (s s' : Nat) (b : Body) :
    fetchFeatureCollection ⟨s, b⟩ = fetchFeatureCollection ⟨s', b⟩ ∧
    (fetchFeatureCollection ⟨s, b⟩ = .error .parseFailure ↔ b = Body.invalid) := by
  refine ⟨rfl, ?_⟩
  cases b with
  | featureRows rows => simp [fetchFeatureCollection, parseFeatureCollection]
  | invalid => simp [fetchFeatureCollection, parseFeatureCollection]

/-- Witness for the amended C4 at a concrete failing response. -/
theorem fetch_parses_unconditionally_witness :
    fetchFeatureCollection ⟨500, Body.invalid⟩ =
      fetchFeatureCollection ⟨200, Body.invalid⟩ ∧
    (fetchFeatureCollection ⟨500, Body.invalid⟩ = .error .parseFailure ↔
      Body.invalid = Body.invalid) :=
  fetch_parses_unconditionally 500 200 Body.invalid

/-! Helper lemmas about the origin of joined rows and their CRS. -/

lemma mem_sjoinRows_origin {P : Pred} {mode : JoinMode} {L R : Table}
    {jr : JoinedRow} (h : jr ∈ sjoinRows P mode L R) :
    (∃ l ∈ L.features, ∃ ri rr, jr = ⟨some l, ri, rr⟩) ∨
    (∃ r ∈ R.features, ∃ ri, jr = ⟨none, ri, some r⟩) := by
  cases mode with
  | inner =>
      obtain ⟨l, hl, hjr⟩ := List.mem_flatMap.1 h
      obtain ⟨ir, _, rfl⟩ := List.mem_map.1 hjr
      exact Or.inl ⟨l, hl, _, _, rfl⟩
  | leftOuter =>
      obtain ⟨l, hl, hjr⟩ := List.mem_flatMap.1 h
      have hleft := mem_leftRowsFor_left hjr
      obtain ⟨jl, jri, jrr⟩ := jr
      exact Or.inl ⟨l, hl, jri, jrr, by rw [show jl = some l from hleft]⟩
  | rightOuter =>
      obtain ⟨ir, hir, hjr⟩ := List.mem_flatMap.1 h
      obtain ⟨i, r⟩ := ir
      have hr : r ∈ R.features := List.snd_mem_of_mem_enumFrom hir
      unfold rightRowsFor at hjr
      cases hf : L.features.filter (fun l => evalPred P l.geom r.geom) with
      | nil =>
          rw [hf] at hjr
          simp at hjr
          exact Or.inr ⟨r, hr, some i, by rw [hjr]⟩
      | cons a ls =>
          rw [hf] at hjr
          obtain ⟨l, hlmem, rfl⟩ := List.mem_map.1 hjr
          exact Or.inl ⟨l, List.mem_of_mem_filter (hf ▸ hlmem), _, _, rfl⟩

lemma rowFeature_gcrs_left (L R : Table) (l : Feature) (ri : Option Nat)
    (rr : Option Feature) :
    (rowFeature L R ⟨some l, ri, rr⟩).gcrs = l.gcrs := rfl

lemma rowFeature_gcrs_right (L R : Table) (ri : Option Nat) (r : Feature) :
    (rowFeature L R ⟨none, ri, some r⟩).gcrs = r.gcrs := rfl

/-- Claim C6: the invariant that each feature's geometry is expressed in the
table's declared CRS is maintained: reprojection rewrites every geometry and
updates the declared CRS in the same step (so its output is always well
formed); defining a CRS by assignment yields a well-formed table whenever the
geometries really are in the assigned CRS, as in the notebooks; and the join
produces a well-formed table from well-formed inputs. -/
theorem crs_invariant_maintained (proj : Nat → Nat → ℤ × ℤ → ℤ × ℤ)
    (T : Table) (c : Nat) :
    (∀ T', to_crs proj T c = .ok T' →
      wellFormed T' ∧ T'.crs = some c ∧
      ∃ src, T.crs = some src ∧
        T'.features =
          T.features.map (fun ft => ⟨ft.attrs, mapGeom (proj src c) ft.geom, c⟩)) ∧
    ((∀ ft ∈ T.features, ft.gcrs = c) → wellFormed (set_crs T c)) ∧
    (∀ (P : Pred) (mode : JoinMode) (R T' : Table),
      wellFormed T → wellFormed R → sjoin P mode T R = .ok T' →
      wellFormed T') := by
  refine ⟨?_, ?_, ?_⟩
  · intro T' hok
    cases hsrc : T.crs with
    | none =>
        unfold to_crs at hok
        rw [hsrc] at hok
        exact absurd hok (by simp)
    | some src =>
        unfold to_crs at hok
        rw [hsrc] at hok
        have hT := (Except.ok.inj hok).symm
        subst hT
        refine ⟨?_, rfl, src, rfl, rfl⟩
        intro c' hc' ft hft
        obtain ⟨ft0, _, rfl⟩ := List.mem_map.1 hft
        have : c = c' := Option.some.inj hc'
        rw [← this]
  · intro hall c' hc' ft hft
    have hcc : c = c' := Option.some.inj hc'
    rw [← hcc]
    exact hall ft hft
  · intro P mode R T' hwL hwR hok
    by_cases hc : T.crs = R.crs
    · unfold sjoin at hok
      rw [if_pos hc] at hok
      have hT := (Except.ok.inj hok).symm
      subst hT
      intro c' hc' ft hft
      obtain ⟨jr, hjr, rfl⟩ := List.mem_map.1 hft
      cases mem_sjoinRows_origin hjr with
      | inl hl =>
          obtain ⟨l, hlmem, ri, rr, rfl⟩ := hl
          rw [rowFeature_gcrs_left]
          exact hwL c' hc' l hlmem
      | inr hr =>
          obtain ⟨r, hrmem, ri, rfl⟩ := hr
          rw [rowFeature_gcrs_right]
          exact hwR c' (by rw [← hc]; exact hc') r hrmem
    · unfold sjoin at hok
      rw [if_neg hc] at hok
      exact absurd hok (by simp)

/-- Witness for C6: defining the CRS of the example square table as the CRS
its geometry is really expressed in yields a well-formed table. -/
theorem crs_invariant_maintained_witness :
    wellFormed (set_crs squareTable 4326) :=
  (crs_invariant_maintained scaleProj squareTable 4326).2.1 (by decide)

/-- Claim C7: the join step is a pure function of its two input tables: whenever
it succeeds it leaves the addresses and pop variables exactly as they were
(rows, attributes, geometries, and declared CRS included) and binds the
join variable to the freshly built result of the join operator. -/
theorem join_step_is_pure (P : Pred) (mode : JoinMode) (σ σ' : Env)
    (h : runJoinStep P mode σ = .ok σ') :
    σ'.addresses = σ.addresses ∧ σ'.pop = σ.pop ∧
    ∃ t, sjoin P mode σ.addresses σ.pop = .ok t ∧ σ'.joined = some t := by
  unfold runJoinStep at h
  cases hs : sjoin P mode σ.addresses σ.pop with
  | error e =>
      rw [hs] at h
      exact absurd h (by simp [Except.map])
  | ok t =>
      rw [hs] at h
      simp only [Except.map] at h
      have h2 := Except.ok.inj h
      subst h2
      exact ⟨rfl, rfl, t, rfl, rfl⟩

/-- Witness for C7 at the example environment. -/
theorem join_step_is_pure_witness :
    exampleEnvAfter.addresses = exampleEnv.addresses ∧
    exampleEnvAfter.pop = exampleEnv.pop ∧
    ∃ t, sjoin .contains .inner exampleEnv.addresses exampleEnv.pop = .ok t ∧
      exampleEnvAfter.joined = some t :=
  join_step_is_pure .contains .inner exampleEnv exampleEnvAfter (by rfl)

lemma mapGeom_id {f : ℤ × ℤ → ℤ × ℤ} (hf : ∀ p, f p = p) (g : Geometry) :
    mapGeom f g = g := by
  cases g with
  | point x y => simp [mapGeom, hf]
  | polygon ring =>
      simp only [mapGeom]
      rw [List.map_congr_left (fun a _ => hf a)]
      simp

/-- Claim C8: reprojecting a table to its own declared CRS leaves every geometry's
coordinates unchanged, given that the projection library's conversion
between a CRS and itself is the identity. -/
theorem identity_reprojection (proj : Nat → Nat → ℤ × ℤ → ℤ × ℤ)
    (T : Table) (c : Nat) (T' : Table)
    (hc : T.crs = some c) (hid : ∀ p, proj c c p = p)
    (hok : to_crs proj T c = .ok T') :
    T'.features.map (fun ft => ft.geom) = T.features.map (fun ft => ft.geom) := by
  unfold to_crs at hok
  rw [hc] at hok
  have hT := (Except.ok.inj hok).symm
  subst hT
  show (T.features.map
      (fun ft => (⟨ft.attrs, mapGeom (proj c c) ft.geom, c⟩ : Feature))).map
      (fun ft => ft.geom) = _
  rw [List.map_map]
  apply List.map_congr_left
  intro ft _
  show mapGeom (proj c c) ft.geom = ft.geom
  exact mapGeom_id hid ft.geom

/-- Witness for C8: reprojecting the square table to its own EPSG:4326 under
the mock conversion (identity on equal systems) keeps the geometry. -/
theorem identity_reprojection_witness :
    squareTable.features.map (fun ft => ft.geom) =
      squareTable.features.map (fun ft => ft.geom) :=
  identity_reprojection scaleProj squareTable 4326 squareTable rfl
    (fun p => by simp [scaleProj]) (by rfl)

lemma decodeRec_encode (c : Nat) (ft : Feature) :
    decodeRec c ⟨ft.attrs, (encodeGeom ft.geom).1, (encodeGeom ft.geom).2⟩ =
      some ⟨ft.attrs, ft.geom, c⟩ := by
  cases hg : ft.geom with
  | point x y => simp [decodeRec, encodeGeom, decodeGeom, hg]
  | polygon ring => simp [decodeRec, encodeGeom, decodeGeom, hg]

lemma decodeAll_encode (c : Nat) (fs : List Feature) :
    decodeAll c
      (fs.map (fun ft => ⟨ft.attrs, (encodeGeom ft.geom).1, (encodeGeom ft.geom).2⟩)) =
      some (fs.map (fun ft => ⟨ft.attrs, ft.geom, c⟩)) := by
  induction fs with
  | nil => rfl
  | cons ft fs ih => simp [decodeAll, decodeRec_encode, ih]

/-- Claim C9: persisting any table and loading it back succeeds and returns a
table with the same declared CRS, the same schema, the same attribute
values, and coordinate-for-coordinate identical geometries (the embedding is
exact, so the floating-point tolerance is met with zero error). -/
theorem file_roundtrip (T : Table) :
    ∃ T', read_file (to_file T) = some T' ∧
      T'.crs = T.crs ∧ T'.schema = T.schema ∧
      T'.features.map (fun ft => ft.attrs) = T.features.map (fun ft => ft.attrs) ∧
      T'.features.map (fun ft => ft.geom) = T.features.map (fun ft => ft.geom) := by
  refine ⟨⟨T.crs, T.schema,
      T.features.map (fun ft => ⟨ft.attrs, ft.geom, T.crs.getD 0⟩)⟩,
    ?_, rfl, rfl, ?_, ?_⟩
  · unfold read_file to_file
    rw [decodeAll_encode]
    rfl
  · rw [List.map_map]
    rfl
  · rw [List.map_map]
    rfl

/-- Claim C10: assigning a CRS identifier to a table's crs field changes only the
declared CRS metadata: the row count, every attribute value, and every
geometry coordinate are exactly those held before the assignment. -/
theorem set_crs_metadata_only (T : Table) (c : Nat) :
    (set_crs T c).crs = some c ∧
    (set_crs T c).features.length = T.features.length ∧
    (set_crs T c).features.map (fun ft => ft.attrs) =
      T.features.map (fun ft => ft.attrs) ∧
    (set_crs T c).features.map (fun ft => ft.geom) =
      T.features.map (fun ft => ft.geom) ∧
    (set_crs T c).schema = T.schema :=
  ⟨rfl, rfl, rfl, rfl, rfl⟩

end GeoNb
